import Mathlib

/-!
Shallow embedding of the header-extraction core of src/app.py
(email-header-extractor).

The Python source consistently writes doubled backslashes inside its string
and regex literals, e.g. line 37 splits on the Python string made of the four
characters backslash n backslash n, and line 118 compiles a regex whose
pattern requires a literal backslash character right after the colon.  The
embedding below is faithful to those literal character sequences; the doc
comments spell out the exact character content of each pattern.

Machine strings are modelled as Lean String (lists of unicode scalar
values), which agrees with Python str for every input exercised here.
-/

/-- Result record built by parse_headers (src/app.py lines 101-108).
Note that header_present is a string, "yes" or "no", in the source. -/
structure ParsedHeaders where
  dkim_domain : String
  dkim_selector : String
  from_domain : String
  returnpath_domain : String
  header_present : String
deriving Repr, DecidableEq

/-- Characters stripped by Python str.strip() with no argument, restricted to
the code points reachable from latin-1 and ASCII text: tab, LF, VT, FF, CR,
the separator controls 0x1C-0x1F, space, NEL 0x85 and NBSP 0xA0. -/
def isPyWs (c : Char) : Bool :=
  [9, 10, 11, 12, 13, 28, 29, 30, 31, 32, 0x85, 0xA0].contains c.toNat

/-- Python str.strip(): remove leading and trailing whitespace. -/
def pyStrip (s : String) : String :=
  String.mk (((s.data.dropWhile isPyWs).reverse.dropWhile isPyWs).reverse)

/-- Python str.strip applied with a double-quote argument: remove all leading
and trailing double-quote characters (src/app.py lines 124 and 126). -/
def pyStripQuotes (s : String) : String :=
  String.mk (((s.data.dropWhile (· = '"')).reverse.dropWhile (· = '"')).reverse)

/-- Case-insensitive literal match: if the input starts with the given
pattern (pattern given in lowercase, input compared lowercased), return the
rest of the input.  Models a regex literal under the (?i) flag. -/
def stripCaseless : List Char → List Char → Option (List Char)
  | [], s => some s
  | _ :: _, [] => none
  | p :: ps, c :: cs => if c.toLower = p then stripCaseless ps cs else none

/-- Try a match at every position where (?m)^ can anchor: position 0 and
every position directly after a newline, in left-to-right order.  This is
re.search for a pattern anchored with ^ under the MULTILINE flag.  The Bool
argument records whether the current position is a line start. -/
def scanLineStarts (tryAt : List Char → Option (List Char)) :
    Bool → List Char → Option (List Char)
  | atStart, [] => if atStart then tryAt [] else none
  | atStart, c :: rest =>
    match (if atStart then tryAt (c :: rest) else none) with
    | some r => some r
    | none => scanLineStarts tryAt (c = '\n') rest

/-- re.search of a (?m)^-anchored pattern over a whole text. -/
def searchLines (tryAt : List Char → Option (List Char)) (s : List Char) :
    Option (List Char) :=
  scanLineStarts tryAt true s

/-- The repetition from the group of the DKIM regex on src/app.py line 118.
In the source the group pattern is, character for character,
( ( ? : [ ^ backslash backslash n ] | backslash backslash n [ space backslash backslash t ] ) * )
so under IGNORECASE one iteration consumes either a single character that is
neither a backslash nor the letter n or N, or the three-character sequence
backslash, n or N, then one of space, backslash, t or T.  Greedy, and
nothing follows the group, so it consumes as much as possible. -/
def dkimCapture : List Char → List Char
  | [] => []
  | '\\' :: rest =>
    match rest with
    | c :: d :: rest2 =>
      if (c = 'n' || c = 'N') && (d = ' ' || d = '\\' || d = 't' || d = 'T') then
        '\\' :: c :: d :: dkimCapture rest2
      else []
    | _ => []
  | c :: rest =>
    if c = 'n' || c = 'N' then [] else c :: dkimCapture rest

/-- One anchored attempt of the DKIM regex of src/app.py line 118: the
pattern is, character for character,
^ d k i m - s i g n a t u r e : backslash backslash s * (group)
under (?mi), i.e. after the case-insensitive literal header name and colon it
requires one literal backslash character, then a run of s or S, then the
folded-capture group. -/
def tryDkimAt (s : List Char) : Option (List Char) :=
  match stripCaseless "dkim-signature:".data s with
  | some ('\\' :: r2) => some (dkimCapture (r2.dropWhile (fun c => c = 's' || c = 'S')))
  | _ => none

/-- re.search of the DKIM regex (src/app.py line 118): group 1 of the first
line-start match, or none. -/
def dkimMatch (s : String) : Option String :=
  (searchLines tryDkimAt s.data).map String.mk

/-- One anchored attempt of the From regex of src/app.py line 129, whose
pattern is, character for character,
^ f r o m : backslash backslash s * ( . * )
under (?mi): case-insensitive from: , one literal backslash, a run of s or
S, then a dot-star capture that stops at the next newline. -/
def tryFromAt (s : List Char) : Option (List Char) :=
  match stripCaseless "from:".data s with
  | some ('\\' :: r2) =>
    some ((r2.dropWhile (fun c => c = 's' || c = 'S')).takeWhile (fun c => c != '\n'))
  | _ => none

/-- re.search of the From regex (src/app.py line 129). -/
def fromMatch (s : String) : Option String :=
  (searchLines tryFromAt s.data).map String.mk

/-- One anchored attempt of the Return-Path regex of src/app.py line 136,
identical in shape to the From regex with the name return-path. -/
def tryReturnPathAt (s : List Char) : Option (List Char) :=
  match stripCaseless "return-path:".data s with
  | some ('\\' :: r2) =>
    some ((r2.dropWhile (fun c => c = 's' || c = 'S')).takeWhile (fun c => c != '\n'))
  | _ => none

/-- re.search of the Return-Path regex (src/app.py line 136). -/
def returnPathMatch (s : String) : Option String :=
  (searchLines tryReturnPathAt s.data).map String.mk

/-- re.search of the tag regexes on src/app.py lines 121-122, whose patterns
are, character for character,
backslash backslash b d = ( [ ^ ; backslash backslash s ] + )
(and the same with s in place of d), with no flags: they look for the
literal four-character text backslash b d = anywhere, then capture a
non-empty greedy run of characters other than semicolon, backslash and the
letter s.  On failure at one position the scan resumes one character later. -/
def tagSearch (tag : Char) : List Char → Option (List Char)
  | [] => none
  | '\\' :: rest =>
    (match rest with
     | 'b' :: t :: '=' :: rest2 =>
       if t = tag then
         let v := rest2.takeWhile (fun c => !(c = ';' || c = '\\' || c = 's'))
         if v = [] then tagSearch tag rest else some v
       else tagSearch tag rest
     | _ => tagSearch tag rest)
  | _ :: rest => tagSearch tag rest

/-- Python str.replace specialized to the first call of src/app.py line 114:
replace every non-overlapping occurrence of the four-character literal text
backslash r backslash n by the two-character text backslash n, scanning left
to right and never rescanning the replacement. -/
def replaceEscRN : List Char → List Char
  | '\\' :: 'r' :: '\\' :: 'n' :: rest => '\\' :: 'n' :: replaceEscRN rest
  | c :: rest => c :: replaceEscRN rest
  | [] => []

/-- Python str.replace specialized to the second call of src/app.py line
114: replace every occurrence of the two-character literal text backslash r
by backslash n. -/
def replaceEscR : List Char → List Char
  | '\\' :: 'r' :: rest => '\\' :: 'n' :: replaceEscR rest
  | c :: rest => c :: replaceEscR rest
  | [] => []

/-- The line-ending normalization of src/app.py line 114.  In the source the
two replace calls use the literal texts backslash r backslash n, backslash n
and backslash r as patterns and replacement, so actual CR and LF characters
are untouched; only literal backslash escape text is rewritten. -/
def pyNormalize (s : String) : String :=
  String.mk (replaceEscR (replaceEscRN s.data))

/-- Everything after the first at-sign: Python addr.split at the first @,
index 1 (src/app.py lines 133 and 140). -/
def afterFirstAt (s : String) : String :=
  String.mk ((s.data.dropWhile (· != '@')).drop 1)

/-- Python str.lower restricted to ASCII case mapping, which agrees with
Python on every input exercised in this development. -/
def pyLower (s : String) : String :=
  String.mk (s.data.map Char.toLower)

/-- Models email.utils.parseaddr from the Python standard library, an
external collaborator of src/app.py (imported on line 9): it returns a pair
of display name and address.  This simplified model returns the text inside
the first angle-bracket pair when one is present and otherwise the stripped
text itself as the address.  Every theorem below about parse_headers either
quantifies over the parseaddr argument or evaluates the code on inputs whose
From and Return-Path regexes fail before parseaddr is reached, so no result
depends on the internals of this model. -/
def parseaddrModel (s : String) : String × String :=
  let afterLt := s.data.dropWhile (· != '<')
  match afterLt with
  | [] => ("", pyStrip s)
  | _ :: r => ("", String.mk (r.takeWhile (· != '>')))

/-- The DKIM block of parse_headers (src/app.py lines 118-126): when the
DKIM regex matches, search its captured group for the d and s tag patterns
and, for each found, store the value stripped of whitespace and then of
double quotes. -/
def applyDkim (ht : String) (r : ParsedHeaders) : ParsedHeaders :=
  match dkimMatch ht with
  | none => r
  | some dkim =>
    let r1 := match tagSearch 'd' dkim.data with
      | none => r
      | some v => { r with dkim_domain := pyStripQuotes (pyStrip (String.mk v)) }
    match tagSearch 's' dkim.data with
    | none => r1
    | some v => { r1 with dkim_selector := pyStripQuotes (pyStrip (String.mk v)) }

/-- The From block of parse_headers (src/app.py lines 129-133): when the
From regex matches, parse the captured text with parseaddr; if the address
contains an at-sign, store everything after the first at-sign, lowercased. -/
def applyFrom (parseaddr : String → String × String) (ht : String)
    (r : ParsedHeaders) : ParsedHeaders :=
  match fromMatch ht with
  | none => r
  | some cap =>
    let addr := (parseaddr cap).2
    if addr.data.contains '@' then
      { r with from_domain := pyLower (afterFirstAt addr) }
    else r

/-- The Return-Path block of parse_headers (src/app.py lines 136-140),
identical to the From block with the Return-Path regex and field. -/
def applyReturnPath (parseaddr : String → String × String) (ht : String)
    (r : ParsedHeaders) : ParsedHeaders :=
  match returnPathMatch ht with
  | none => r
  | some cap =>
    let addr := (parseaddr cap).2
    if addr.data.contains '@' then
      { r with returnpath_domain := pyLower (afterFirstAt addr) }
    else r

/-- parse_headers (src/app.py lines 101-142), parameterized by the external
parseaddr collaborator.  header_present is the string yes when the input is
non-empty and the string no otherwise (line 107); an empty input returns the
defaults at once (lines 110-111); otherwise line endings are normalized
(line 114, literal escape text only, see pyNormalize) and the three
extraction blocks run in order. -/
def parse_headers (parseaddr : String → String × String)
    (headers_text : String) : ParsedHeaders :=
  let res : ParsedHeaders :=
    { dkim_domain := ""
      dkim_selector := ""
      from_domain := ""
      returnpath_domain := ""
      header_present := if headers_text = "" then "no" else "yes" }
  if headers_text = "" then res
  else
    let ht := pyNormalize headers_text
    applyReturnPath parseaddr ht (applyFrom parseaddr ht (applyDkim ht res))

/-- Portion of a character list before the first occurrence of the given
separator; the whole list when the separator never occurs.  This is the
first component of Python s.split(sep, 1). -/
def splitBefore (sep : List Char) : List Char → List Char
  | [] => []
  | c :: rest =>
    if sep.isPrefixOf (c :: rest) then [] else c :: splitBefore sep rest

/-- Portion of a character list before the first position at which any of
the given separators occurs; the whole list when none occurs.  This is the
first component of a maxsplit-1 re.split whose pattern is a finite set of
literal alternatives, since only the start of the leftmost match matters. -/
def splitBeforeAny (seps : List (List Char)) : List Char → List Char
  | [] => []
  | c :: rest =>
    if seps.any (fun sep => sep.isPrefixOf (c :: rest)) then []
    else c :: splitBeforeAny seps rest

/-- Python bytes.decode with utf-8 and errors ignore: decode well-formed
UTF-8 sequences and silently drop the offending byte run of any ill-formed
sequence (the longest valid prefix of a sequence is dropped and decoding
resumes at the first byte that does not fit). -/
def utf8Go : Nat → List Nat → List Char
  | 0, _ => []
  | _, [] => []
  | fuel + 1, b :: rest =>
    if b < 0x80 then
      Char.ofNat b :: utf8Go fuel rest
    else if 0xC2 ≤ b && b ≤ 0xDF then
      match rest with
      | b2 :: rest2 =>
        if 0x80 ≤ b2 && b2 ≤ 0xBF then
          Char.ofNat ((b - 0xC0) * 64 + (b2 - 0x80)) :: utf8Go fuel rest2
        else utf8Go fuel (b2 :: rest2)
      | [] => []
    else if 0xE0 ≤ b && b ≤ 0xEF then
      match rest with
      | b2 :: rest2 =>
        if (b = 0xE0 && (0xA0 ≤ b2 && b2 ≤ 0xBF)) ||
           (b = 0xED && (0x80 ≤ b2 && b2 ≤ 0x9F)) ||
           (b ≠ 0xE0 && b ≠ 0xED && (0x80 ≤ b2 && b2 ≤ 0xBF)) then
          match rest2 with
          | b3 :: rest3 =>
            if 0x80 ≤ b3 && b3 ≤ 0xBF then
              Char.ofNat ((b - 0xE0) * 4096 + (b2 - 0x80) * 64 + (b3 - 0x80)) ::
                utf8Go fuel rest3
            else utf8Go fuel (b3 :: rest3)
          | [] => []
        else utf8Go fuel (b2 :: rest2)
      | [] => []
    else if 0xF0 ≤ b && b ≤ 0xF4 then
      match rest with
      | b2 :: rest2 =>
        if (b = 0xF0 && (0x90 ≤ b2 && b2 ≤ 0xBF)) ||
           (b = 0xF4 && (0x80 ≤ b2 && b2 ≤ 0x8F)) ||
           (b ≠ 0xF0 && b ≠ 0xF4 && (0x80 ≤ b2 && b2 ≤ 0xBF)) then
          match rest2 with
          | b3 :: rest3 =>
            if 0x80 ≤ b3 && b3 ≤ 0xBF then
              match rest3 with
              | b4 :: rest4 =>
                if 0x80 ≤ b4 && b4 ≤ 0xBF then
                  Char.ofNat ((b - 0xF0) * 262144 + (b2 - 0x80) * 4096 +
                    (b3 - 0x80) * 64 + (b4 - 0x80)) :: utf8Go fuel rest4
                else utf8Go fuel (b4 :: rest4)
              | [] => []
            else utf8Go fuel (b3 :: rest3)
          | [] => []
        else utf8Go fuel (b2 :: rest2)
      | [] => []
    else utf8Go fuel rest

/-- Python bytes.decode with utf-8 and errors ignore, entered through a fuel
argument that only bounds the recursion (every step consumes at least one
byte, so the byte count is always enough fuel). -/
def utf8DecodeIgnore (bs : List Nat) : List Char :=
  utf8Go bs.length bs

/-- Python bytes.decode with latin1: each byte becomes the character of the
same code point.  Total; the mod keeps the model total on arbitrary Nat. -/
def latin1Decode (bs : List Nat) : String :=
  String.mk (bs.map fun b => Char.ofNat (b % 256))

/-- UTF-8 bytes of an ASCII string, used to build concrete byte inputs. -/
def strBytes (s : String) : List Nat :=
  s.data.map Char.toNat

/-- extract_from_eml (src/app.py lines 31-37): decode the bytes as UTF-8
with errors ignore (the latin1 branch of the try is dead because a decode
that ignores errors never raises) and return the part of the text before
the first occurrence of the literal four-character sequence backslash n
backslash n, which is what the split call on line 37 looks for. -/
def extract_from_eml (raw : List Nat) : String :=
  String.mk (splitBefore ['\\', 'n', '\\', 'n'] (utf8DecodeIgnore raw))

/-- A duck-typed value observed on the container object: the isinstance
dispatch in src/app.py lines 59-64 distinguishes dict, bytes and str;
anything else is skipped.  Dict entries are modelled as rendered key and
value strings in mapping order. -/
inductive PyVal where
  | dict (entries : List (String × String))
  | bytes (bs : List Nat)
  | str (s : String)
  | other
deriving Repr, DecidableEq

/-- The observable surface of an extract_msg.Message object (an external
collaborator): for each attribute name, none models hasattr false, error
models a retrieval or call that raises (swallowed by the code), and ok
carries the final value after an eventual zero-argument call.  rawMsg plays
the same role for the raw_msg attribute probed on src/app.py line 73. -/
structure MsgObject where
  attrs : List (String × Except Unit PyVal)
  rawMsg : Option (Except Unit PyVal)
deriving Repr

/-- The environment of one extract_from_msg call: the outcome of
extract_msg.Message at the path (none models the constructor raising, the
early return on src/app.py lines 45-48) and the outcome of reading the raw
file bytes in the final fallback (error models an IO failure). -/
structure MsgEnv where
  openResult : Option MsgObject
  fileBytes : Except Unit (List Nat)
deriving Repr

/-- The fixed attribute probe order of src/app.py line 53. -/
def attrsToCheck : List String :=
  ["header", "headers", "get_headers", "get_header", "get_email_headers",
   "headers_string"]

/-- Probing of one attribute (src/app.py lines 54-68): missing attribute or
raising retrieval yields nothing; a dict is rendered as key colon space
value lines joined by the literal two-character text backslash n (the join
separator written on line 61); bytes are decoded as latin1; the result is
kept only when it is a string whose strip is non-empty. -/
def probeAttr (m : MsgObject) (attr : String) : Option String :=
  match m.attrs.lookup attr with
  | none => none
  | some (Except.error _) => none
  | some (Except.ok v) =>
    let h : Option String :=
      match v with
      | PyVal.dict es =>
        some (String.intercalate "\\n" (es.map fun kv => kv.1 ++ ": " ++ kv.2))
      | PyVal.bytes bs => some (latin1Decode bs)
      | PyVal.str s => some s
      | PyVal.other => none
    match h with
    | none => none
    | some s => if pyStrip s = "" then none else some s

/-- The raw_msg candidate (src/app.py lines 71-79): when the attribute is
present without raising and holds bytes, decode latin1, split before the
first literal backslash n backslash n text (line 75) and keep the part when
its strip is non-empty. -/
def rawMsgCandidate (m : MsgObject) : List String :=
  match m.rawMsg with
  | some (Except.ok (PyVal.bytes bs)) =>
    let part := String.mk (splitBefore ['\\', 'n', '\\', 'n'] (latin1Decode bs).data)
    if pyStrip part = "" then [] else [part]
  | _ => []

/-- All candidates collected by the probing step (src/app.py lines 50-79),
in collection order: the six named attributes, then the raw_msg candidate. -/
def collectCandidates (m : MsgObject) : List String :=
  attrsToCheck.filterMap (probeAttr m) ++ rawMsgCandidate m

/-- Stable insertion of a string into a length-descending list: the new
element goes before the first element whose length is not larger, so an
earlier-seen element stays before later ties. -/
def insertDesc (x : String) : List String → List String
  | [] => [x]
  | y :: ys => if y.length ≤ x.length then x :: y :: ys else y :: insertDesc x ys

/-- Python sorted with key len and reverse true (src/app.py line 83):
a stable descending sort by length.  Stable sorting by a key is a unique
function of the input list, so this insertion sort is extensionally the
Python sort. -/
def pySortDesc : List String → List String
  | [] => []
  | x :: xs => insertDesc x (pySortDesc xs)

/-- The four literal character sequences matched by the regex of src/app.py
line 93.  The raw-string pattern there is, character for character,
backslash backslash r ? backslash backslash n backslash backslash r ? backslash backslash n
in which every double backslash is one escaped literal backslash of the
regex, so a match is backslash, optional r, backslash, n, backslash,
optional r, backslash, n: only doubled-backslash escape text, never an
actual blank line.  Since only the start of the leftmost match matters for
the first split part, the four expanded alternatives are listed. -/
def msgFallbackSeps : List (List Char) :=
  [['\\', 'r', '\\', 'n', '\\', 'r', '\\', 'n'],
   ['\\', 'r', '\\', 'n', '\\', '\\', 'n'],
   ['\\', '\\', 'n', '\\', 'r', '\\', 'n'],
   ['\\', '\\', 'n', '\\', '\\', 'n']]

/-- extract_from_msg (src/app.py lines 39-99): a failing container open
returns none at once (lines 45-48); otherwise candidates are collected, and
when at least one exists the head of the stable length-descending sort is
returned (lines 81-84); with no candidate the raw file bytes are read,
decoded latin1 and split before the first literal escape-text blank-line
marker, returning the part when its strip is non-empty (lines 86-97); in
every remaining case the result is none (line 99). -/
def extract_from_msg (env : MsgEnv) : Option String :=
  match env.openResult with
  | none => none
  | some m =>
    let candidates := collectCandidates m
    if candidates = [] then
      match env.fileBytes with
      | Except.error _ => none
      | Except.ok raw =>
        let part := String.mk (splitBeforeAny msgFallbackSeps (latin1Decode raw).data)
        if pyStrip part = "" then none else some part
    else
      (pySortDesc candidates).head?

/-- Written from the words of the spec, for comparison with the code: the
header block is everything before the first blank line, where the blank-line
marker is an actual bare LF LF or an actual CRLF CRLF. -/
def specBlankSplit (s : String) : String :=
  String.mk (splitBeforeAny [['\n', '\n'], ['\r', '\n', '\r', '\n']] s.data)

/-- Written from the words of the spec and of claim C7: the first candidate,
in collection order, whose character count is maximal. -/
def specFirstLongest : List String → Option String
  | [] => none
  | x :: xs =>
    match specFirstLongest xs with
    | none => some x
    | some y => if x.length < y.length then some y else some x

/-- The CRLF variant of a text: every LF becomes CR LF (claim C6). -/
def crlfList : List Char → List Char
  | [] => []
  | '\n' :: rest => '\r' :: '\n' :: crlfList rest
  | c :: rest => c :: crlfList rest

/-- The CRLF variant of a string. -/
def crlfOf (s : String) : String :=
  String.mk (crlfList s.data)

/-- Byte input of claim C1: ASCII text with a CRLF CRLF blank line. -/
def emlClaimBytes : List Nat :=
  strBytes "From: a@b.com\r\n\r\nBody text"

/-- Header text of claim C3: a folded DKIM-Signature header. -/
def dkimFoldedInput : String :=
  "DKIM-Signature: v=1; d=example.com;\n s=sel1; bh=..."

/-- Header text of claim C4: a From line with a quoted display name. -/
def fromDisplayInput : String :=
  "From: \"A\" <a@Example.COM>"

/-- Probe text for claim C6.  Its characters are
d k i m - s i g n a t u r e : backslash backslash n backslash b d = a LF b
chosen so that the literal-escape DKIM regex of the source matches and its
captured d tag value straddles the actual line break. -/
def crlfProbe : String :=
  "dkim-signature:\\\\n\\bd=a\nb"

/-- Environment of claim C2: the container open fails while the raw file
bytes hold a header block terminated by an actual blank line. -/
def msgOpenFailEnv : MsgEnv :=
  { openResult := none
    fileBytes := Except.ok (strBytes "From: a@b.com\n\nBody text") }

/-- A container object exposing none of the probed attributes. -/
def msgEmptyObj : MsgObject :=
  { attrs := [], rawMsg := none }

/-- Environment whose container opens but exposes nothing, and whose raw
file bytes contain the doubled-backslash escape text that the line-93 regex
of the source actually splits on. -/
def msgLiteralEscEnv : MsgEnv :=
  { openResult := some msgEmptyObj
    fileBytes := Except.ok (strBytes "From: x\\\\n\\\\nBody") }

/-- A container object whose first two probed attributes tie in length. -/
def msgTieObj : MsgObject :=
  { attrs := [("header", Except.ok (PyVal.str "ab")),
              ("headers", Except.ok (PyVal.str "xy")),
              ("get_headers", Except.ok (PyVal.str "q"))]
    rawMsg := none }

/-- Environment around msgTieObj; the file read would fail if reached. -/
def msgTieEnv : MsgEnv :=
  { openResult := some msgTieObj, fileBytes := Except.error () }

/-- A container object exposing one string attribute. -/
def msgStrObj : MsgObject :=
  { attrs := [("headers", Except.ok (PyVal.str "X"))], rawMsg := none }

/-- Environment around msgStrObj. -/
def msgStrEnv : MsgEnv :=
  { openResult := some msgStrObj, fileBytes := Except.error () }

/-- The DKIM block never touches header_present. -/
theorem applyDkim_header_present (ht : String) (r : ParsedHeaders) :
    (applyDkim ht r).header_present = r.header_present := by
  rcases hm : dkimMatch ht with _ | dkim
  · simp [applyDkim, hm]
  · rcases hd : tagSearch 'd' dkim.data with _ | v <;>
      rcases hs : tagSearch 's' dkim.data with _ | w <;>
      simp [applyDkim, hm, hd, hs]

/-- The From block never touches header_present. -/
theorem applyFrom_header_present (pa : String → String × String) (ht : String)
    (r : ParsedHeaders) : (applyFrom pa ht r).header_present = r.header_present := by
  rcases hm : fromMatch ht with _ | cap
  · simp [applyFrom, hm]
  · simp only [applyFrom, hm]
    split <;> rfl

/-- The Return-Path block never touches header_present. -/
theorem applyReturnPath_header_present (pa : String → String × String)
    (ht : String) (r : ParsedHeaders) :
    (applyReturnPath pa ht r).header_present = r.header_present := by
  rcases hm : returnPathMatch ht with _ | cap
  · simp [applyReturnPath, hm]
  · simp only [applyReturnPath, hm]
    split <;> rfl

/-- header_present only reflects emptiness of the input text. -/
theorem parse_headers_header_present (pa : String → String × String)
    (t : String) :
    (parse_headers pa t).header_present = if t = "" then "no" else "yes" := by
  by_cases h : t = ""
  · simp [parse_headers, h]
  · simp only [parse_headers, if_neg h]
    rw [applyReturnPath_header_present, applyFrom_header_present,
      applyDkim_header_present]

/-- The empty input returns the all-default record at once. -/
theorem parse_headers_empty (pa : String → String × String) :
    parse_headers pa "" =
      { dkim_domain := "", dkim_selector := "", from_domain := ""
        returnpath_domain := "", header_present := "no" } := rfl

/-- Membership through stable descending insertion. -/
theorem mem_insertDesc (x y : String) (l : List String)
    (h : x ∈ insertDesc y l) : x = y ∨ x ∈ l := by
  induction l with
  | nil => simpa [insertDesc] using h
  | cons z zs ih =>
    simp only [insertDesc] at h
    by_cases hc : z.length ≤ y.length
    · rw [if_pos hc] at h
      rcases List.mem_cons.mp h with h1 | h1
      · exact Or.inl h1
      · exact Or.inr h1
    · rw [if_neg hc] at h
      rcases List.mem_cons.mp h with h1 | h1
      · exact Or.inr (List.mem_cons.mpr (Or.inl h1))
      · rcases ih h1 with h2 | h2
        · exact Or.inl h2
        · exact Or.inr (List.mem_cons.mpr (Or.inr h2))

/-- The head of the stable length-descending sort is the first-seen element
of maximal length described by the spec. -/
theorem head_pySortDesc (cs : List String) :
    (pySortDesc cs).head? = specFirstLongest cs := by
  induction cs with
  | nil => rfl
  | cons x xs ih =>
    simp only [pySortDesc, specFirstLongest]
    cases h : pySortDesc xs with
    | nil =>
      rw [h] at ih
      rw [← ih]
      rfl
    | cons y ys =>
      rw [h] at ih
      rw [← ih]
      show (insertDesc x (y :: ys)).head? =
        if x.length < y.length then some y else some x
      simp only [insertDesc]
      by_cases hc : y.length ≤ x.length
      · rw [if_pos hc, if_neg (by omega)]
        rfl
      · rw [if_neg hc, if_pos (by omega)]
        rfl

/-- The spec selection picks an element of the list. -/
theorem specFirstLongest_mem (cs : List String) (x : String)
    (h : specFirstLongest cs = some x) : x ∈ cs := by
  induction cs with
  | nil => simp [specFirstLongest] at h
  | cons y ys ih =>
    cases hz : specFirstLongest ys with
    | none =>
      simp only [specFirstLongest, hz] at h
      simp at h
      simp [h]
    | some z =>
      simp only [specFirstLongest, hz] at h
      by_cases hv : y.length < z.length
      · rw [if_pos hv] at h
        injection h with h
        exact List.mem_cons.mpr (Or.inr (ih (by rw [hz, h])))
      · rw [if_neg hv] at h
        injection h with h
        exact List.mem_cons.mpr (Or.inl h.symm)

/-- A successful attribute probe is guarded by a non-empty strip check. -/
theorem probeAttr_strip (m : MsgObject) (a : String) (s : String)
    (h : probeAttr m a = some s) : ¬ pyStrip s = "" := by
  unfold probeAttr at h
  repeat' split at h
  all_goals simp_all
  all_goals (obtain ⟨h1, h2⟩ := h; subst h2; exact h1)

/-- The raw_msg candidate is guarded by a non-empty strip check. -/
theorem rawMsgCandidate_strip (m : MsgObject) (x : String)
    (h : x ∈ rawMsgCandidate m) : ¬ pyStrip x = "" := by
  unfold rawMsgCandidate at h
  repeat' split at h
  all_goals simp_all

/-- Every collected candidate has a non-empty strip. -/
theorem collectCandidates_strip (m : MsgObject) (x : String)
    (h : x ∈ collectCandidates m) : ¬ pyStrip x = "" := by
  unfold collectCandidates at h
  rcases List.mem_append.mp h with h1 | h1
  · rcases List.mem_filterMap.mp h1 with ⟨a, _, ha⟩
    exact probeAttr_strip m a x ha
  · exact rawMsgCandidate_strip m x h1

/-- The From block is the identity when its regex fails. -/
theorem applyFrom_of_none (pa : String → String × String) (ht : String)
    (r : ParsedHeaders) (h : fromMatch ht = none) : applyFrom pa ht r = r := by
  simp [applyFrom, h]

/-- The Return-Path block is the identity when its regex fails. -/
theorem applyReturnPath_of_none (pa : String → String × String) (ht : String)
    (r : ParsedHeaders) (h : returnPathMatch ht = none) :
    applyReturnPath pa ht r = r := by
  simp [applyReturnPath, h]

/-- A non-empty input runs the three extraction blocks on the normalized
text over the default record with header_present set to yes. -/
theorem parse_headers_nonempty (pa : String → String × String) (t : String)
    (h : ¬ t = "") :
    parse_headers pa t =
      applyReturnPath pa (pyNormalize t)
        (applyFrom pa (pyNormalize t)
          (applyDkim (pyNormalize t)
            { dkim_domain := "", dkim_selector := "", from_domain := ""
              returnpath_domain := "", header_present := "yes" })) := by
  simp [parse_headers, h]

/-- C1: the claim says the EML path returns the decoded text before the
first blank line, accepting bare LF LF and CRLF CRLF, so that the byte
input From: a at b.com CRLF CRLF Body text yields From: a at b.com.  On the
code the split target of src/app.py line 37 is the literal four-character
text backslash n backslash n, which never occurs in this input, so the
whole decoded text comes back unchanged: the claim fails on the code. -/
theorem C1_eml_split_misses_blank_line :
    extract_from_eml emlClaimBytes = "From: a@b.com\r\n\r\nBody text" ∧
    ¬ ("From: a@b.com\r\n\r\nBody text" : String) = "From: a@b.com" := by
  exact ⟨by decide, by decide⟩

/-- C2 counterexample: an environment whose container open fails while the
raw file bytes hold the header block From: a at b.com before an actual
blank line.  The claim says the extractor must not report absence here, yet
extract_from_msg returns none, because src/app.py lines 45-48 return None
as soon as extract_msg.Message raises, without reaching the raw fallback. -/
theorem C2_counterexample :
    extract_from_msg msgOpenFailEnv = none ∧
    specBlankSplit (latin1Decode (strBytes "From: a@b.com\n\nBody text")) =
      "From: a@b.com" ∧
    ¬ pyStrip "From: a@b.com" = "" := by
  exact ⟨rfl, by decide, by decide⟩

/-- C2 amended: a failing container open yields none at once, whatever the
raw file bytes hold; the raw-byte fallback runs only when the container
opens successfully and attribute probing collects no candidate, and then a
part with non-empty strip before the first literal escape-text marker is
returned. -/
theorem C2_open_failure_is_absent :
    (∀ env : MsgEnv, env.openResult = none → extract_from_msg env = none) ∧
    (∀ (env : MsgEnv) (m : MsgObject) (raw : List Nat),
      env.openResult = some m → collectCandidates m = [] →
      env.fileBytes = Except.ok raw →
      ¬ pyStrip (String.mk (splitBeforeAny msgFallbackSeps
          (latin1Decode raw).data)) = "" →
      extract_from_msg env = some (String.mk (splitBeforeAny msgFallbackSeps
        (latin1Decode raw).data))) := by
  constructor
  · intro env h
    simp [extract_from_msg, h]
  · intro env m raw h1 h2 h3 h4
    simp only [extract_from_msg, h1, h3]
    rw [if_pos h2, if_neg h4]

/-- C2 witness: the amended statement applied to the open-failure
environment and to an environment whose empty container falls through to
the raw fallback on doubled-backslash escape text. -/
theorem C2_open_failure_is_absent_witness :
    extract_from_msg msgOpenFailEnv = none ∧
    extract_from_msg msgLiteralEscEnv =
      some (String.mk (splitBeforeAny msgFallbackSeps
        (latin1Decode (strBytes "From: x\\\\n\\\\nBody")).data)) := by
  exact ⟨C2_open_failure_is_absent.1 msgOpenFailEnv rfl,
    C2_open_failure_is_absent.2 msgLiteralEscEnv msgEmptyObj
      (strBytes "From: x\\\\n\\\\nBody") rfl (by decide) rfl (by decide)⟩

/-- C3: the claim says a folded DKIM-Signature header yields dkim_domain
example.com and dkim_selector sel1.  On the code the DKIM regex of
src/app.py line 118 demands a literal backslash character right after the
colon, so it never matches this header and both fields stay empty,
whichever parseaddr the environment supplies: the claim fails on the code. -/
theorem C3_folded_dkim_not_extracted :
    ∀ pa : String → String × String,
      (parse_headers pa dkimFoldedInput).dkim_domain = "" ∧
      (parse_headers pa dkimFoldedInput).dkim_selector = "" := by
  intro pa
  rw [parse_headers_nonempty pa dkimFoldedInput (by decide),
    applyReturnPath_of_none pa (pyNormalize dkimFoldedInput) _ (by decide),
    applyFrom_of_none pa (pyNormalize dkimFoldedInput) _ (by decide)]
  exact ⟨by decide, by decide⟩

/-- C4: the claim says a From line with a quoted display name yields
from_domain example.com.  On the code the From regex of src/app.py line 129
demands a literal backslash character right after the colon, so it never
matches this line, parseaddr is never consulted and from_domain stays
empty: the claim fails on the code. -/
theorem C4_from_display_name_not_extracted :
    ∀ pa : String → String × String,
      (parse_headers pa fromDisplayInput).from_domain = "" := by
  intro pa
  rw [parse_headers_nonempty pa fromDisplayInput (by decide),
    applyReturnPath_of_none pa (pyNormalize fromDisplayInput) _ (by decide),
    applyFrom_of_none pa (pyNormalize fromDisplayInput) _ (by decide)]
  decide

/-- C5 counterexample: the claim says header_present equals boolean false
on empty input and boolean true on non-empty input.  In the code the field
is a string, whose value is the two-letter word no on empty input and the
word yes on non-empty input, neither of which is a rendering of a boolean:
the claim as stated fails on the code. -/
theorem C5_counterexample :
    (parse_headers parseaddrModel "").header_present = "no" ∧
    (parse_headers parseaddrModel "x").header_present = "yes" ∧
    ¬ ("no" : String) = "false" ∧ ¬ ("yes" : String) = "true" := by
  exact ⟨by decide, by decide, by decide, by decide⟩

/-- C5 amended: for every absent or empty header input the parser returns
the all-default record with the four domain fields empty and header_present
equal to the string no; for every non-empty input header_present equals the
string yes, independent of whether any field extraction succeeded. -/
theorem C5_empty_input_defaults :
    ∀ (pa : String → String × String) (t : String),
      (t = "" → parse_headers pa t =
        { dkim_domain := "", dkim_selector := "", from_domain := ""
          returnpath_domain := "", header_present := "no" }) ∧
      (¬ t = "" → (parse_headers pa t).header_present = "yes") := by
  intro pa t
  constructor
  · intro h
    subst h
    exact parse_headers_empty pa
  · intro h
    rw [parse_headers_header_present pa t, if_neg h]

/-- C5 witness: the amended statement applied at the empty input and at a
one-letter input. -/
theorem C5_empty_input_defaults_witness :
    parse_headers parseaddrModel "" =
      { dkim_domain := "", dkim_selector := "", from_domain := ""
        returnpath_domain := "", header_present := "no" } ∧
    (parse_headers parseaddrModel "A").header_present = "yes" := by
  exact ⟨(C5_empty_input_defaults parseaddrModel "").1 rfl,
    (C5_empty_input_defaults parseaddrModel "A").2 (by decide)⟩

/-- C6: the claim says parsing a text and parsing its CRLF variant give
identical records.  On the code the normalization of src/app.py line 114
rewrites only literal escape text, so the CR characters of the CRLF variant
leak into extracted values: on the probe text the d tag value is the
three-character a LF b, but on the CRLF variant it is a CR LF b, whichever
parseaddr the environment supplies: the claim fails on the code. -/
theorem C6_crlf_variant_differs :
    ∀ pa : String → String × String,
      (parse_headers pa crlfProbe).dkim_domain = "a\nb" ∧
      (parse_headers pa (crlfOf crlfProbe)).dkim_domain = "a\r\nb" ∧
      ¬ ("a\nb" : String) = "a\r\nb" := by
  intro pa
  refine ⟨?_, ?_, by decide⟩
  · rw [parse_headers_nonempty pa crlfProbe (by decide),
      applyReturnPath_of_none pa (pyNormalize crlfProbe) _ (by decide),
      applyFrom_of_none pa (pyNormalize crlfProbe) _ (by decide)]
    decide
  · rw [parse_headers_nonempty pa (crlfOf crlfProbe) (by decide),
      applyReturnPath_of_none pa (pyNormalize (crlfOf crlfProbe)) _ (by decide),
      applyFrom_of_none pa (pyNormalize (crlfOf crlfProbe)) _ (by decide)]
    decide

/-- C7: whenever the probing step collects one or more candidates, the
extractor returns the candidate of greatest character count, ties broken in
first-seen order: the head of the stable length-descending sort of
src/app.py line 83 is exactly the spec selection. -/
theorem C7_longest_candidate_first_seen :
    ∀ (env : MsgEnv) (m : MsgObject), env.openResult = some m →
      ¬ collectCandidates m = [] →
      extract_from_msg env = specFirstLongest (collectCandidates m) := by
  intro env m h1 h2
  simp only [extract_from_msg, h1]
  rw [if_neg h2]
  exact head_pySortDesc (collectCandidates m)

/-- C7 witness: the theorem applied to a container whose first two
candidates tie in length; the first-seen one is returned. -/
theorem C7_longest_candidate_first_seen_witness :
    extract_from_msg msgTieEnv = specFirstLongest (collectCandidates msgTieObj) ∧
    specFirstLongest (collectCandidates msgTieObj) = some "ab" := by
  exact ⟨C7_longest_candidate_first_seen msgTieEnv msgTieObj rfl (by decide),
    by decide⟩

/-- C8: if header_present carries the negative value, the string no, then
all four domain fields are empty.  The converse direction is not asserted
by the claim and not proved. -/
theorem C8_absent_implies_empty :
    ∀ (pa : String → String × String) (t : String),
      (parse_headers pa t).header_present = "no" →
      (parse_headers pa t).dkim_domain = "" ∧
      (parse_headers pa t).dkim_selector = "" ∧
      (parse_headers pa t).from_domain = "" ∧
      (parse_headers pa t).returnpath_domain = "" := by
  intro pa t h
  by_cases ht : t = ""
  · subst ht
    rw [parse_headers_empty]
    exact ⟨rfl, rfl, rfl, rfl⟩
  · rw [parse_headers_header_present pa t, if_neg ht] at h
    exact absurd h (by decide)

/-- C8 witness: the theorem applied at the empty input. -/
theorem C8_absent_implies_empty_witness :
    (parse_headers parseaddrModel "").dkim_domain = "" ∧
    (parse_headers parseaddrModel "").dkim_selector = "" ∧
    (parse_headers parseaddrModel "").from_domain = "" ∧
    (parse_headers parseaddrModel "").returnpath_domain = "" := by
  exact C8_absent_implies_empty parseaddrModel "" rfl

/-- C9: the MSG extractor never returns a blank string: every result is
either none or a string whose strip is non-empty, because every candidate
and the fallback part pass a non-empty strip check before acceptance. -/
theorem C9_result_never_blank :
    ∀ (env : MsgEnv) (s : String), extract_from_msg env = some s →
      ¬ pyStrip s = "" := by
  intro env s h
  simp only [extract_from_msg] at h
  cases ho : env.openResult with
  | none =>
    simp only [ho] at h
    exact absurd h (by simp)
  | some m =>
    simp only [ho] at h
    by_cases hc : collectCandidates m = []
    · rw [if_pos hc] at h
      cases hf : env.fileBytes with
      | error e =>
        simp only [hf] at h
        exact absurd h (by simp)
      | ok raw =>
        simp only [hf] at h
        by_cases hp : pyStrip (String.mk (splitBeforeAny msgFallbackSeps
            (latin1Decode raw).data)) = ""
        · rw [if_pos hp] at h
          exact absurd h (by simp)
        · rw [if_neg hp] at h
          injection h with h
          rw [← h]
          exact hp
    · rw [if_neg hc] at h
      rw [head_pySortDesc] at h
      exact collectCandidates_strip m s (specFirstLongest_mem _ _ h)

/-- C9 witness: the theorem applied to a container exposing one string
attribute. -/
theorem C9_result_never_blank_witness :
    extract_from_msg msgStrEnv = some "X" ∧ ¬ pyStrip "X" = "" := by
  exact ⟨by decide, C9_result_never_blank msgStrEnv "X" (by decide)⟩

/-- C10: for every input the header_present field of the result is the
string yes exactly when the input is non-empty and the string no exactly
when it is empty; it is a string by type, never a boolean. -/
theorem C10_header_present_yes_no :
    ∀ (pa : String → String × String) (t : String),
      (parse_headers pa t).header_present = if t = "" then "no" else "yes" := by
  intro pa t
  exact parse_headers_header_present pa t
